import Mathlib

/-!
# A local mirror of a remote key-value store (`redis/redis_mirror.go`)

Shallow embedding of the package `redis`:

* Go strings are Lean `String`s; the only byte the code looks for is `':'`,
  which never occurs inside a multi-byte character.
* `interface{}` keys and values of the formatter are type parameters `K`, `V`.
* `sync.Map` is a finite map, modelled by its lookup function.
* The client library (`pool.Cmd`, `Resp`, the scanner, the subscription
  client) is outside the package: replies are data handed to the embedded
  functions, and every remote command issued is recorded in a log.
* A Go panic is an explicit outcome.
-/

set_option linter.dupNamespace false

namespace RedisMirror

/-! ## Errors and outcomes -/

/-- Error values made by the client library: `ErrRespNil` for a nil reply, a
reply of another type than the one asked for, a transport failure, or an error
reply of the server. -/
inductive LibError where
  | respNil
  | badType
  | transport (msg : String)
  | app (msg : String)
  deriving DecidableEq, Repr

/-- Values of Go type `error` seen by the package: its own `ErrNotFound`
(made by `errors.New`, hence different from every library error) and the
errors of the client library. -/
inductive Error where
  | ErrNotFound
  | lib (e : LibError)
  deriving DecidableEq, Repr

/-- The method `Error()` of an error value. -/
def Error.message : Error → String
  | .ErrNotFound => "Key not found"
  | .lib .respNil => "response is nil"
  | .lib .badType => "wrong type"
  | .lib (.transport msg) => msg
  | .lib (.app msg) => msg

/-- Result of running Go code that may panic. -/
inductive Outcome (α : Type) where
  | ok (a : α)
  | panic (msg : String)
  deriving DecidableEq, Repr

/-- Calling `err.Error()` on a variable of type `error`: a nil interface has no
method to call and the call panics. -/
def callError : Option Error → Outcome String
  | some e => .ok e.message
  | none => .panic "invalid memory address or nil pointer dereference"

/-! ## The client library's replies -/

/-- A reply of the remote store (`*redis.Resp`): a failure (field `Err` set),
the nil reply, a string, an integer or an array of replies. -/
inductive Resp where
  | failed (e : LibError)
  | nil
  | str (s : String)
  | int (i : Int)
  | array (xs : List Resp)

/-- Field `Err` of a reply. -/
def Resp.Err : Resp → Option Error
  | .failed e => some (.lib e)
  | _ => none

/-- Method `Str()` of a reply: the error of a failed reply, `ErrRespNil` for
the nil reply, the string of a string reply, the type error otherwise. -/
def Resp.Str : Resp → Except Error String
  | .failed e => .error (.lib e)
  | .nil => .error (.lib .respNil)
  | .str s => .ok s
  | _ => .error (.lib .badType)

/-- Method `Array()` of a reply. -/
def Resp.Array : Resp → Except Error (List Resp)
  | .failed e => .error (.lib e)
  | .array xs => .ok xs
  | _ => .error (.lib .badType)

/-- An argument of a command, of Go type `interface{}`: nil or a string. -/
inductive Arg where
  | nil
  | str (s : String)
  deriving DecidableEq, Repr

/-- A command sent to the remote store. -/
structure Command where
  name : String
  args : List Arg
  deriving DecidableEq, Repr

/-- The connection pool, seen through `pool.Cmd`. -/
structure Pool where
  Cmd : String → List Arg → Resp

/-! ## Formatter, store and mirror -/

/-- Interface `KVFormatter`. -/
structure KVFormatter (K V : Type) where
  ToKey : String → K
  ToValue : String → V
  FromKey : K → String
  FromValue : V → String

/-- The formatter `DefaultKVFormatter`: keys and values are the wire strings. -/
def DefaultKVFormatter : KVFormatter String String where
  ToKey := fun s => s
  ToValue := fun s => s
  FromKey := fun s => s
  FromValue := fun s => s

/-- A `sync.Map` from keys to values, given by its lookup. -/
def SyncMap (K V : Type) : Type := K → Option V

namespace SyncMap

variable {K V : Type}

/-- The empty map of `new(sync.Map)`. -/
def empty : SyncMap K V := fun _ => none

/-- Method `Load`. -/
def Load (s : SyncMap K V) (key : K) : Option V := s key

/-- Method `Store`. -/
def Store [DecidableEq K] (s : SyncMap K V) (key : K) (value : V) : SyncMap K V :=
  fun k => if k = key then some value else s k

/-- Method `Delete`. -/
def Delete [DecidableEq K] (s : SyncMap K V) (key : K) : SyncMap K V :=
  fun k => if k = key then none else s k

end SyncMap

/-- Struct `Mirror`. -/
structure Mirror (K V : Type) where
  pool : Pool
  store : SyncMap K V
  formatter : KVFormatter K V
  index : Int

/-- What a method of the mirror leaves behind: its return value, the store
after the call and the remote commands it issued, in order. -/
structure Ret (K V α : Type) where
  val : α
  store : SyncMap K V
  cmds : List Command

/-! ## Channel names -/

/-- Formatting verb `%d` on an integer. -/
def fmtInt (i : Int) : String := toString i

/-- Method `keyEvents`: `fmt.Sprintf("__keyevent@%d__:%s", m.index, f)`. -/
def keyEvents (index : Int) (f : String) : String :=
  "__keyevent@" ++ fmtInt index ++ "__:" ++ f

/-- Search of the first `':'`: the characters before it and those after it. -/
def cutColon : List Char → Option (List Char × List Char)
  | [] => none
  | c :: cs =>
    if c = ':' then some ([], cs)
    else match cutColon cs with
      | none => none
      | some (a, b) => some (c :: a, b)

/-- The call `strings.SplitN(s, ":", 2)`: the string itself when it holds no
`':'`, otherwise the two parts around the first one. -/
def SplitN2 (s : String) : List String :=
  match cutColon s.data with
  | none => [s]
  | some (a, b) => [String.mk a, String.mk b]

/-- Function `getEvent`: element 1 of the split, a panic when there is none. -/
def getEvent (channel : String) : Outcome String :=
  match (SplitN2 channel).get? 1 with
  | some e => .ok e
  | none => .panic "index out of range [1] with length 1"

/-! ## Remote reads -/

section Methods

variable {K V : Type} [DecidableEq K]

/-- Method `redisGet`. -/
def redisGet (m : Mirror K V) (key : String) : Except Error String × List Command :=
  let resp := m.pool.Cmd "GET" [Arg.str key]
  let cmds := [Command.mk "GET" [Arg.str key]]
  match resp.Err with
  | some e => (.error e, cmds)
  | none => (resp.Str, cmds)

/-- Method `queryRedis`. -/
def queryRedis (m : Mirror K V) (key : K) : Except Error V × List Command :=
  let skey := m.formatter.FromKey key
  match redisGet m skey with
  | (.error err, cmds) => (.error err, cmds)
  | (.ok sval, cmds) => (.ok (m.formatter.ToValue sval), cmds)

/-- Method `Get`. -/
def Get (m : Mirror K V) (key : K) : Ret K V (Except Error V) :=
  match m.store.Load key with
  | some value => ⟨.ok value, m.store, []⟩
  | none =>
    match queryRedis m key with
    | (.error err, cmds) => ⟨.error err, m.store, cmds⟩
    | (.ok value, cmds) => ⟨.ok value, m.store.Store key value, cmds⟩

/-- One turn of the loop of `redisMget` over the reply array: the variable `x`
appended to `out` is the outer one, declared nil; the string is stored in a
second `x` declared inside the `if`. -/
def mgetSlot (resp : Resp) : Option String :=
  let x : Option String := none
  match resp.Str with
  | .ok str =>
    let _x : Option String := some str
    x
  | .error _ => x

/-- Method `redisMget`: the command carries `keys`, a slice of `len(keyStr)`
nil arguments made by `make` and never written. -/
def redisMget (m : Mirror K V) (keyStr : List String) :
    Except Error (List (Option String)) × List Command :=
  if keyStr.length = 0 then (.ok [], [])
  else
    let keys : List Arg := List.replicate keyStr.length Arg.nil
    let resp := m.pool.Cmd "MGET" keys
    let cmds := [Command.mk "MGET" keys]
    match resp.Err with
    | some e => (.error e, cmds)
    | none =>
      match resp.Array with
      | .error err => (.error err, cmds)
      | .ok array => (.ok (array.map mgetSlot), cmds)

/-! ## Bootstrap scan -/

/-- The loop `for j, value := range values` of `mGetAndSave`, from index `j`. -/
def saveValues (f : KVFormatter K V) (keys : List String) :
    Nat → List (Option String) → SyncMap K V → Outcome Unit × SyncMap K V
  | _, [], store => (.ok (), store)
  | j, none :: rest, store => saveValues f keys (j + 1) rest store
  | j, some value :: rest, store =>
    match keys.get? j with
    | none => (.panic "index out of range", store)
    | some kj => saveValues f keys (j + 1) rest (store.Store (f.ToKey kj) (f.ToValue value))

/-- The closure `mGetAndSave` of `Mirror`. The returned `error` is `none` for nil. -/
def mGetAndSave (m : Mirror K V) (keys : List String) : Ret K V (Outcome (Option Error)) :=
  match redisMget m keys with
  | (.error err, cmds) => ⟨.ok (some err), m.store, cmds⟩
  | (.ok values, cmds) =>
    if keys.length ≠ values.length then ⟨.panic "MGET command failed", m.store, cmds⟩
    else
      match saveValues m.formatter keys 0 values m.store with
      | (.panic msg, store) => ⟨.panic msg, store, cmds⟩
      | (.ok _, store) => ⟨.ok none, store, cmds⟩

/-- The scanner of the client library (`util.NewScanner` with `SCAN`): the keys
it hands out one by one while `HasNext` holds, and the error `Err()` reports
once it has stopped. -/
structure Scanner where
  keys : List String
  err : Option Error

/-- A finite remote keyspace: the wire keys the remote store holds, each with
its value. -/
abbrev Remote := List (String × String)

/-- The scan of a keyspace that is not mutated meanwhile: every key the remote
store holds is handed out, in any order and possibly more than once. -/
def Scanner.covers (scanner : Scanner) (remote : Remote) : Prop :=
  ∀ k v, (k, v) ∈ remote → k ∈ scanner.keys

/-- Capacity of the batch buffer: `make([]string, 0, 10)`. -/
def bufCap : Nat := 10

/-- The loop `for i := 0; scanner.HasNext(); i++` of `Mirror` and what follows
it. `buf` is the slice up to its length; `buf[i] = x` panics unless `i` is
below that length, and `buf[:0]` is the empty slice. `cmds` are the commands
issued so far. -/
def mirrorLoop (m : Mirror K V) (scanErr : Option Error) :
    List String → Nat → List String → List Command → Ret K V (Outcome (Option Error))
  | [], _, buf, cmds =>
    match scanErr with
    | some err => ⟨.ok (some err), m.store, cmds⟩
    | none =>
      let r := mGetAndSave m buf
      ⟨r.val, r.store, cmds ++ r.cmds⟩
  | key :: rest, i, buf, cmds =>
    if i < buf.length then
      let buf := buf.set i key
      if i = bufCap - 1 then
        let r := mGetAndSave m buf
        match r.val with
        | .ok none =>
          mirrorLoop { m with store := r.store } scanErr rest (i + 1) (buf.take 0) (cmds ++ r.cmds)
        | other => ⟨other, r.store, cmds ++ r.cmds⟩
      else mirrorLoop m scanErr rest (i + 1) buf cmds
    else ⟨.panic "index out of range", m.store, cmds⟩

/-- Method `Mirror`: the result is the returned `error` (`none` for nil) or a panic. -/
def Mirror.Mirror (m : Mirror K V) (scanner : Scanner) : Ret K V (Outcome (Option Error)) :=
  mirrorLoop m scanner.err scanner.keys 0 [] []

/-! ## Event loop -/

/-- Kinds of a subscription reply (`pubsub.SubRespType`). -/
inductive SubRespType where
  | Error
  | Subscribe
  | Unsubscribe
  | Message
  deriving DecidableEq, Repr

/-- A reply of the subscription client (`*pubsub.SubResp`) with the result of
its method `Timeout()`; `Typ` is the field `Type`. -/
structure SubResp where
  Typ : SubRespType
  Channel : String
  Message : String
  Err : Option Error
  Timeout : Bool

/-- A pooled connection, by identity. -/
abbrev Conn := Nat

/-- What `ProcessEvents` does to the outside. -/
inductive Action where
  | Println (a b : String)
  | Close (cl : Conn)
  | Cmd (c : Command)
  deriving DecidableEq, Repr

/-- Where `ProcessEvents` stands: at label `MAIN_LOOP` holding no connection;
at the start of the inner `for` holding the subscribed connection `cl`, with
the variable `err` assigned by `m.pool.Get()`; returned; or panicked. -/
inductive Loc where
  | MAIN_LOOP
  | receiving (cl : Conn) (err : Option Error)
  | returned
  | panicked (msg : String)
  deriving DecidableEq, Repr

/-- The variable `err` holds nil at the location, which is so wherever the
inner loop runs. -/
def Loc.errNil : Loc → Prop
  | .receiving _ err => err = none
  | _ => True

/-- What the outside answers during one turn of a loop of `ProcessEvents`:
`isClosed(ctx)`, then `m.pool.Get()` and `PSubscribe` (outer loop) or
`Receive` (inner loop). -/
structure Env where
  closed : Bool
  get : Conn × Option Error
  psub : SubResp
  recv : SubResp

/-- The `switch` of `ProcessEvents` on the event of a message: the store after
it and the remote commands issued. -/
def dispatch (m : Mirror K V) (event key : String) : SyncMap K V × List Action :=
  if event = "expire" then
    match redisGet m key with
    | (.ok value, cmds) =>
      (m.store.Store (m.formatter.ToKey key) (m.formatter.ToValue value), cmds.map Action.Cmd)
    | (.error _, cmds) => (m.store, cmds.map Action.Cmd)
  else if event = "expired" then
    (m.store.Delete (m.formatter.ToKey key), [])
  else if event = "del" then
    (m.store.Delete (m.formatter.ToKey key), [])
  else (m.store, [])

/-- One turn of a loop of `ProcessEvents`: from `MAIN_LOOP` the body of the
outer `for` up to the inner one, from `receiving` the body of the inner `for`.
The store of `m` is the store before the turn. -/
def step (m : Mirror K V) (loc : Loc) (env : Env) : Loc × SyncMap K V × List Action :=
  match loc with
  | .MAIN_LOOP =>
    if env.closed then (.returned, m.store, [])
    else
      let cl := env.get.1
      let err := env.get.2
      if err.isSome then
        match callError err with
        | .panic msg => (.panicked msg, m.store, [])
        | .ok s => (.MAIN_LOOP, m.store, [.Println "error getting connection:" s])
      else
        let resp := env.psub
        if resp.Err.isSome then
          match callError err with
          | .panic msg => (.panicked msg, m.store, [])
          | .ok s => (.MAIN_LOOP, m.store, [.Println "error subscribing to events:" s, .Close cl])
        else (.receiving cl err, m.store, [])
  | .receiving cl err =>
    if env.closed then (.returned, m.store, [.Close cl])
    else
      let resp := env.recv
      if resp.Timeout then (.receiving cl err, m.store, [])
      else if resp.Err.isSome then
        match callError err with
        | .panic msg => (.panicked msg, m.store, [])
        | .ok s => (.MAIN_LOOP, m.store, [.Println "error receiving event:" s, .Close cl])
      else if resp.Typ ≠ SubRespType.Message then (.receiving cl err, m.store, [])
      else
        let key := resp.Message
        match getEvent resp.Channel with
        | .panic msg => (.panicked msg, m.store, [])
        | .ok event =>
          let r := dispatch m event key
          (.receiving cl err, r.1, r.2)
  | .returned => (.returned, m.store, [])
  | .panicked msg => (.panicked msg, m.store, [])

/-- Method `ProcessEvents` run against the answers `envs`, one per turn, from
location `loc`: where it stands afterwards, the store and everything it did. -/
def ProcessEvents (m : Mirror K V) (loc : Loc) : List Env → Loc × SyncMap K V × List Action
  | [] => (loc, m.store, [])
  | env :: envs =>
    let r := step m loc env
    let r2 := ProcessEvents { m with store := r.2.1 } r.1 envs
    (r2.1, r2.2.1, r.2.2 ++ r2.2.2)

end Methods

/-! ## Examples -/

/-- A remote store holding `{"a":"1","b":"2"}`: `GET` answers the value of the
key or nil, `MGET` one such answer per argument. -/
def exampleValue : Arg → Resp
  | .str "a" => .str "1"
  | .str "b" => .str "2"
  | _ => .nil

/-- The pool in front of the example remote store. -/
def examplePool : Pool where
  Cmd := fun name args =>
    if name = "GET" then
      match args with
      | [a] => exampleValue a
      | _ => .failed (.app "wrong number of arguments")
    else if name = "MGET" then .array (args.map exampleValue)
    else .failed (.app "unknown command")

/-- A fresh mirror of the example remote store, with the default formatter. -/
def exampleMirror : Mirror String String where
  pool := examplePool
  store := SyncMap.empty
  formatter := DefaultKVFormatter
  index := 0

/-- A fresh mirror whose pool answers every command with `reply`. -/
def replyMirror (reply : Resp) : Mirror String String where
  pool := ⟨fun _ _ => reply⟩
  store := SyncMap.empty
  formatter := DefaultKVFormatter
  index := 0

/-- A mirror holding the stale entry `"a"` in front of a remote store that
holds nothing. -/
def staleMirror : Mirror String String where
  pool := ⟨fun name args =>
    if name = "MGET" then .array (args.map fun _ => Resp.nil) else .nil⟩
  store := SyncMap.empty.Store "a" "0"
  formatter := DefaultKVFormatter
  index := 0

/-- The example mirror after `"a"` was cached. -/
def cachedMirror : Mirror String String :=
  { exampleMirror with store := SyncMap.empty.Store "a" "1" }

/-- A subscription reply acknowledging a subscription. -/
def subscribedResp : SubResp where
  Typ := .Subscribe
  Channel := "__keyevent@0__:*"
  Message := ""
  Err := none
  Timeout := false

/-- A reply carrying a connection failure that is not a timeout. -/
def brokenResp : SubResp where
  Typ := .Error
  Channel := ""
  Message := ""
  Err := some (.lib (.transport "EOF"))
  Timeout := false

/-- The notification that key `"a"` was deleted. -/
def delResp : SubResp where
  Typ := .Message
  Channel := "__keyevent@0__:del"
  Message := "a"
  Err := none
  Timeout := false

/-- A turn in which the connection and the subscription succeed. -/
def connectEnv : Env := ⟨false, (1, none), subscribedResp, subscribedResp⟩

/-- A turn in which the receive fails. -/
def brokenEnv : Env := ⟨false, (1, none), subscribedResp, brokenResp⟩

/-- A turn in which the subscription fails. -/
def refusedEnv : Env := ⟨false, (1, none), brokenResp, subscribedResp⟩

/-- The notification that key `"a"` had its time to live set. -/
def expireResp : SubResp where
  Typ := .Message
  Channel := "__keyevent@0__:expire"
  Message := "a"
  Err := none
  Timeout := false

/-- The notification that the key `"c"`, which the remote store does not hold,
had its time to live set. -/
def expireGoneResp : SubResp where
  Typ := .Message
  Channel := "__keyevent@0__:expire"
  Message := "c"
  Err := none
  Timeout := false

/-- The notification that key `"a"` has expired. -/
def expiredResp : SubResp where
  Typ := .Message
  Channel := "__keyevent@0__:expired"
  Message := "a"
  Err := none
  Timeout := false

/-- The notification that key `"a"` was set. -/
def setResp : SubResp where
  Typ := .Message
  Channel := "__keyevent@0__:set"
  Message := "a"
  Err := none
  Timeout := false

/-- A turn in which the expire notification of `"a"` is received. -/
def expireEnv : Env := ⟨false, (1, none), subscribedResp, expireResp⟩

/-- A turn in which the expire notification of `"c"` is received. -/
def expireGoneEnv : Env := ⟨false, (1, none), subscribedResp, expireGoneResp⟩

/-- A turn in which the expiry of `"a"` is received. -/
def expiredEnv : Env := ⟨false, (1, none), subscribedResp, expiredResp⟩

/-- A turn in which the set notification of `"a"` is received. -/
def setEnv : Env := ⟨false, (1, none), subscribedResp, setResp⟩

/-- A turn in which the deletion of `"a"` is received. -/
def delEnv : Env := ⟨false, (1, none), subscribedResp, delResp⟩

/-! ## Channel names: proofs -/

theorem cutColon_append (pre post : List Char) (h : ':' ∉ pre) :
    cutColon (pre ++ ':' :: post) = some (pre, post) := by
  induction pre with
  | nil => simp [cutColon]
  | cons c cs ih =>
    have hc : c ≠ ':' := fun e => h (by simp [e])
    have hcs : ':' ∉ cs := fun e => h (by simp [e])
    simp [cutColon, hc, ih hcs]

theorem digitChar_ne_colon (d : Nat) (h : d < 10) : Nat.digitChar d ≠ ':' := by
  interval_cases d <;> decide

theorem toDigitsCore_no_colon (fuel n : Nat) (ds : List Char) (h : ':' ∉ ds) :
    ':' ∉ Nat.toDigitsCore 10 fuel n ds := by
  induction fuel generalizing n ds with
  | zero => simpa [Nat.toDigitsCore] using h
  | succ fuel ih =>
    have hd : ':' ∉ Nat.digitChar (n % 10) :: ds := by
      intro hm
      rcases List.mem_cons.1 hm with e | e
      · exact digitChar_ne_colon (n % 10) (Nat.mod_lt _ (by decide)) e.symm
      · exact h e
    unfold Nat.toDigitsCore
    by_cases h0 : n / 10 = 0
    · simpa [h0] using hd
    · simpa [h0] using ih (n / 10) _ hd

theorem natRepr_no_colon (n : Nat) : ':' ∉ (Nat.repr n).data := by
  simpa [Nat.repr, Nat.toDigits, List.asString] using toDigitsCore_no_colon (n + 1) n [] (by simp)

theorem fmtInt_no_colon (i : Int) : ':' ∉ (fmtInt i).data := by
  cases i with
  | ofNat n => simpa [fmtInt, toString, instToStringInt] using natRepr_no_colon n
  | negSucc n => simpa [fmtInt, toString, instToStringInt] using natRepr_no_colon (n + 1)

theorem getEvent_data (channel : String) (pre post : List Char) (h : ':' ∉ pre)
    (hd : channel.data = pre ++ ':' :: post) : getEvent channel = .ok (String.mk post) := by
  simp [getEvent, SplitN2, hd, cutColon_append _ _ h]

/-- C10: for every database index `d` and every event kind `f` (empty or
holding `':'` as well), `getEvent` of the channel name `keyEvents d f` is `f`;
and for every channel name made of a part without `':'`, a `':'` and a rest,
`getEvent` returns that rest, the suffix after the first `':'`. -/
theorem getEvent_keyEvents :
    (∀ (d : Int) (f : String), getEvent (keyEvents d f) = .ok f) ∧
    (∀ pre post : String, ':' ∉ pre.data → getEvent (pre ++ ":" ++ post) = .ok post) := by
  refine ⟨fun d f => ?_, fun pre post h => ?_⟩
  · have hpre : ':' ∉ "__keyevent@".data ++ (fmtInt d).data ++ "__".data := by
      have := fmtInt_no_colon d
      simp only [List.mem_append, not_or]
      exact ⟨⟨by decide, this⟩, by decide⟩
    exact getEvent_data _ _ f.data hpre (by simp [keyEvents, String.data_append])
  · exact getEvent_data _ pre.data post.data h (by simp [String.data_append])

theorem getEvent_keyEvents_witness :
    getEvent (keyEvents 3 "a:b") = .ok "a:b" ∧ getEvent ("x" ++ ":" ++ "y:z") = .ok "y:z" :=
  ⟨getEvent_keyEvents.1 3 "a:b", getEvent_keyEvents.2 "x" "y:z" (by decide)⟩

section Proofs

variable {K V : Type}

/-! ## Read-through `Get` -/

theorem redisGet_str (m : Mirror K V) (key s : String)
    (h : m.pool.Cmd "GET" [Arg.str key] = Resp.str s) :
    redisGet m key = (.ok s, [Command.mk "GET" [Arg.str key]]) := by
  simp [redisGet, h, Resp.Err, Resp.Str]

theorem redisGet_nil (m : Mirror K V) (key : String)
    (h : m.pool.Cmd "GET" [Arg.str key] = Resp.nil) :
    redisGet m key = (.error (.lib .respNil), [Command.mk "GET" [Arg.str key]]) := by
  simp [redisGet, h, Resp.Err, Resp.Str]

theorem redisGet_ne_ErrNotFound (m : Mirror K V) (key : String) :
    (redisGet m key).1 ≠ .error .ErrNotFound := by
  unfold redisGet
  cases m.pool.Cmd "GET" [Arg.str key] <;> simp [Resp.Err, Resp.Str]

theorem mgetSlot_eq_none (resp : Resp) : mgetSlot resp = none := by
  unfold mgetSlot
  cases resp.Str <;> rfl

theorem map_mgetSlot (array : List Resp) :
    array.map mgetSlot = List.replicate array.length none := by
  induction array with
  | nil => rfl
  | cons r rs ih => simp [mgetSlot_eq_none, ih, List.replicate_succ]

theorem redisMget_array (m : Mirror K V) (keys : List String) (array : List Resp)
    (hne : keys ≠ [])
    (hreply : m.pool.Cmd "MGET" (List.replicate keys.length Arg.nil) = Resp.array array) :
    redisMget m keys = (.ok (List.replicate array.length none),
      [Command.mk "MGET" (List.replicate keys.length Arg.nil)]) := by
  have hl : keys.length ≠ 0 := by simpa using hne
  simp [redisMget, hl, hreply, Resp.Err, Resp.Array, map_mgetSlot]

variable [DecidableEq K]

/-- C2: when the store has no entry for `k` and the remote `GET` of
`FromKey k` answers the string `s`, `Get k` returns `ToValue s` with a nil
error, and the store afterwards is the old one with `k` mapped to `ToValue s`:
`k` loads that value and every other key loads what it did. -/
theorem Get_miss_reads_through (m : Mirror K V) (k : K) (s : String)
    (hmiss : m.store.Load k = none)
    (hget : m.pool.Cmd "GET" [Arg.str (m.formatter.FromKey k)] = Resp.str s) :
    (Get m k).val = .ok (m.formatter.ToValue s) ∧
    (Get m k).store = m.store.Store k (m.formatter.ToValue s) ∧
    (Get m k).store.Load k = some (m.formatter.ToValue s) ∧
    ∀ k2, k2 ≠ k → (Get m k).store.Load k2 = m.store.Load k2 := by
  have hq : queryRedis m k =
      (.ok (m.formatter.ToValue s), [Command.mk "GET" [Arg.str (m.formatter.FromKey k)]]) := by
    simp [queryRedis, redisGet_str m _ s hget]
  have hG : Get m k = ⟨.ok (m.formatter.ToValue s), m.store.Store k (m.formatter.ToValue s),
      [Command.mk "GET" [Arg.str (m.formatter.FromKey k)]]⟩ := by
    simp [Get, hmiss, hq]
  refine ⟨by rw [hG], by rw [hG], by simp [hG, SyncMap.Load, SyncMap.Store], ?_⟩
  intro k2 hk
  simp [hG, SyncMap.Load, SyncMap.Store, hk]

theorem Get_miss_reads_through_witness :
    (Get exampleMirror "a").val = .ok "1" ∧
    (Get exampleMirror "a").store.Load "a" = some "1" :=
  have h := Get_miss_reads_through exampleMirror "a" "1" rfl rfl
  ⟨h.1, h.2.2.1⟩

/-- C3: when the store maps `k` to `v`, `Get k` returns `v` with a nil error,
issues no remote command whatever the pool would answer, and leaves the store
as it was. -/
theorem Get_hit_is_local (m : Mirror K V) (k : K) (v : V)
    (hhit : m.store.Load k = some v) :
    (Get m k).val = .ok v ∧ (Get m k).cmds = [] ∧ (Get m k).store = m.store := by
  simp [Get, hhit]

theorem Get_hit_is_local_witness :
    (Get cachedMirror "a").val = .ok "1" ∧ (Get cachedMirror "a").cmds = [] ∧
    (Get cachedMirror "a").store = cachedMirror.store :=
  Get_hit_is_local cachedMirror "a" "1" rfl

/-- C4 on the code: when neither the store nor the remote store holds `k` (the
remote `GET` answers nil), `Get k` returns the error `ErrRespNil` of the
client library that `Str()` produced, which is not `ErrNotFound`. -/
theorem Get_absent_returns_respNil (m : Mirror K V) (k : K)
    (hmiss : m.store.Load k = none)
    (hget : m.pool.Cmd "GET" [Arg.str (m.formatter.FromKey k)] = Resp.nil) :
    (Get m k).val = .error (.lib .respNil) ∧ (Get m k).val ≠ .error .ErrNotFound := by
  have hq : queryRedis m k =
      (.error (.lib .respNil), [Command.mk "GET" [Arg.str (m.formatter.FromKey k)]]) := by
    simp [queryRedis, redisGet_nil m _ hget]
  have hG : (Get m k).val = .error (.lib .respNil) := by
    simp [Get, hmiss, hq]
  exact ⟨hG, by rw [hG]; simp⟩

theorem Get_absent_returns_respNil_witness :
    (Get exampleMirror "c").val = .error (.lib .respNil) ∧
    (Get exampleMirror "c").val ≠ .error .ErrNotFound :=
  Get_absent_returns_respNil exampleMirror "c" rfl rfl

/-- C7: whenever `Get k` returns a non-nil error, the store after the call is
the store before it; in particular `k` loads what it did, so no entry is made
for it. -/
theorem Get_error_keeps_store (m : Mirror K V) (k : K) (e : Error)
    (herr : (Get m k).val = .error e) :
    (Get m k).store = m.store ∧ (Get m k).store.Load k = m.store.Load k := by
  have hs : (Get m k).store = m.store := by
    unfold Get at herr ⊢
    cases hl : m.store.Load k with
    | some v => simp
    | none =>
      rw [hl] at herr
      rcases hq : queryRedis m k with ⟨r, cmds⟩
      rw [hq] at herr
      cases r with
      | error x => simp
      | ok v => simp at herr
  exact ⟨hs, by rw [hs]⟩

theorem Get_error_keeps_store_witness :
    (Get exampleMirror "c").store = exampleMirror.store ∧
    (Get exampleMirror "c").store.Load "c" = exampleMirror.store.Load "c" :=
  Get_error_keeps_store exampleMirror "c" (.lib .respNil) rfl

/-! ## Bootstrap scan -/

theorem saveValues_replicate_none (f : KVFormatter K V) (keys : List String) (j n : Nat)
    (store : SyncMap K V) :
    saveValues f keys j (List.replicate n none) store = (.ok (), store) := by
  induction n generalizing j with
  | zero => simp [saveValues]
  | succ n ih => simp [List.replicate_succ, saveValues, ih]

theorem mGetAndSave_nil (m : Mirror K V) : mGetAndSave m [] = ⟨.ok none, m.store, []⟩ := by
  simp [mGetAndSave, redisMget, saveValues]

/-- C8 on the code: for every non-empty batch of wire keys and every reply of
as many positions, `mGetAndSave` returns nil after one `MGET` whose arguments
are all nil instead of the keys, and the store is left as it was: no position
with a value is saved. -/
theorem mGetAndSave_saves_nothing (m : Mirror K V) (keys : List String) (array : List Resp)
    (hne : keys ≠ []) (hlen : array.length = keys.length)
    (hreply : m.pool.Cmd "MGET" (List.replicate keys.length Arg.nil) = Resp.array array) :
    (mGetAndSave m keys).val = .ok none ∧
    (mGetAndSave m keys).cmds = [Command.mk "MGET" (List.replicate keys.length Arg.nil)] ∧
    (mGetAndSave m keys).store = m.store := by
  simp [mGetAndSave, redisMget_array m keys array hne hreply, hlen, saveValues_replicate_none]

theorem mGetAndSave_saves_nothing_witness :
    (mGetAndSave (replyMirror (.array [.str "1"])) ["a"]).val = .ok none ∧
    (mGetAndSave (replyMirror (.array [.str "1"])) ["a"]).cmds =
      [Command.mk "MGET" [Arg.nil]] ∧
    (mGetAndSave (replyMirror (.array [.str "1"])) ["a"]).store = SyncMap.empty :=
  mGetAndSave_saves_nothing (replyMirror (.array [.str "1"])) ["a"] [.str "1"] (by simp) rfl rfl

/-- C9 on the code: as soon as the scanner hands out one key, `Mirror` panics
on the first write `buf[0]` into the buffer of length 0, before any command
is issued and with the store as it was. -/
theorem Mirror_panics_on_first_key (m : Mirror K V) (key : String) (rest : List String)
    (err : Option Error) :
    (Mirror.Mirror m ⟨key :: rest, err⟩).val = .panic "index out of range" ∧
    (Mirror.Mirror m ⟨key :: rest, err⟩).cmds = [] ∧
    (Mirror.Mirror m ⟨key :: rest, err⟩).store = m.store := by
  simp [Mirror.Mirror, mirrorLoop]

theorem Mirror_store_unchanged (m : Mirror K V) (scanner : Scanner) :
    (Mirror.Mirror m scanner).store = m.store := by
  rcases scanner with ⟨keys, err⟩
  cases keys with
  | nil => cases err <;> simp [Mirror.Mirror, mirrorLoop, mGetAndSave_nil]
  | cons key rest => simp [Mirror.Mirror, mirrorLoop]

theorem Mirror_nil_no_keys (m : Mirror K V) (scanner : Scanner)
    (hnil : (Mirror.Mirror m scanner).val = .ok none) : scanner.keys = [] := by
  rcases scanner with ⟨keys, err⟩
  cases keys with
  | nil => rfl
  | cons key rest => simp [Mirror.Mirror, mirrorLoop] at hnil

/-- C1: for every finite remote keyspace whose keys the scanner hands out and
every initial store, if `Mirror` returns nil then for every wire key `k` the
remote store holds with value `v` the store afterwards maps `ToKey k` to
`ToValue v`, and a following `Get (ToKey k)` returns `ToValue v` with a nil
error, the store as it is and no remote command. On this code `Mirror` returns
nil only after a scan that handed out no key. -/
theorem Mirror_nil_mirrors_remote (m : Mirror K V) (scanner : Scanner) (remote : Remote)
    (hscan : scanner.covers remote)
    (hnil : (Mirror.Mirror m scanner).val = .ok none) :
    ∀ k v, (k, v) ∈ remote →
      (Mirror.Mirror m scanner).store.Load (m.formatter.ToKey k) =
        some (m.formatter.ToValue v) ∧
      (Get { m with store := (Mirror.Mirror m scanner).store } (m.formatter.ToKey k)).val =
        .ok (m.formatter.ToValue v) ∧
      (Get { m with store := (Mirror.Mirror m scanner).store } (m.formatter.ToKey k)).cmds =
        [] ∧
      (Get { m with store := (Mirror.Mirror m scanner).store } (m.formatter.ToKey k)).store =
        (Mirror.Mirror m scanner).store := by
  intro k v hmem
  have hk : k ∈ scanner.keys := hscan k v hmem
  rw [Mirror_nil_no_keys m scanner hnil] at hk
  exact absurd hk (List.not_mem_nil k)

theorem Mirror_nil_mirrors_remote_witness :
    (Mirror.Mirror staleMirror ⟨[], none⟩).val = .ok none ∧
    (Mirror.Mirror staleMirror ⟨[], none⟩).store.Load "a" = some "0" ∧
    ∀ k v, (k, v) ∈ ([] : Remote) →
      (Mirror.Mirror staleMirror ⟨[], none⟩).store.Load (staleMirror.formatter.ToKey k) =
        some (staleMirror.formatter.ToValue v) ∧
      (Get { staleMirror with store := (Mirror.Mirror staleMirror ⟨[], none⟩).store }
        (staleMirror.formatter.ToKey k)).val = .ok (staleMirror.formatter.ToValue v) ∧
      (Get { staleMirror with store := (Mirror.Mirror staleMirror ⟨[], none⟩).store }
        (staleMirror.formatter.ToKey k)).cmds = [] ∧
      (Get { staleMirror with store := (Mirror.Mirror staleMirror ⟨[], none⟩).store }
        (staleMirror.formatter.ToKey k)).store = (Mirror.Mirror staleMirror ⟨[], none⟩).store :=
  ⟨rfl, rfl, Mirror_nil_mirrors_remote staleMirror ⟨[], none⟩ []
    (fun _ _ h => absurd h (List.not_mem_nil _)) rfl⟩

/-! ## Event loop -/

theorem step_errNil (m : Mirror K V) (loc : Loc) (env : Env) (h : loc.errNil) :
    (step m loc env).1.errNil := by
  cases loc with
  | MAIN_LOOP =>
    unfold step
    rcases env with ⟨closed, ⟨cl, err⟩, psub, recv⟩
    cases closed <;> cases err <;> cases hp : psub.Err <;> simp [Loc.errNil, callError, hp]
  | receiving cl err =>
    simp only [Loc.errNil] at h
    subst h
    unfold step
    rcases env with ⟨closed, get, psub, recv⟩
    cases closed <;> cases ht : recv.Timeout <;> cases he : recv.Err <;>
      simp [Loc.errNil, callError, ht, he]
    by_cases hty : recv.Typ = SubRespType.Message
    · cases getEvent recv.Channel <;> simp [hty]
    · simp [hty]
  | returned => simp [step, Loc.errNil]
  | panicked msg => simp [step, Loc.errNil]

theorem ProcessEvents_errNil (m : Mirror K V) (loc : Loc) (envs : List Env) (h : loc.errNil) :
    (ProcessEvents m loc envs).1.errNil := by
  induction envs generalizing m loc with
  | nil => simpa [ProcessEvents] using h
  | cons env envs ih =>
    simp only [ProcessEvents]
    exact ih _ _ (step_errNil m loc env h)

/-- C6 on the code: in every state that `ProcessEvents` reaches from its start
holding a subscribed connection, with the context not cancelled, a receive
that returns a non-timeout error makes it panic on `err.Error()` with `err`
nil, before the connection is closed; and so does a failed pattern
subscription after a successful `pool.Get()`. -/
theorem ProcessEvents_error_panics (m : Mirror K V) :
    (∀ (envs : List Env) (cl : Conn) (err : Option Error) (store : SyncMap K V)
        (acts : List Action) (env : Env),
      ProcessEvents m .MAIN_LOOP envs = (.receiving cl err, store, acts) →
      env.closed = false → env.recv.Timeout = false → env.recv.Err.isSome = true →
      step { m with store := store } (.receiving cl err) env =
        (.panicked "invalid memory address or nil pointer dereference", store, [])) ∧
    (∀ env : Env, env.closed = false → env.get.2 = none → env.psub.Err.isSome = true →
      step m .MAIN_LOOP env =
        (.panicked "invalid memory address or nil pointer dereference", m.store, [])) := by
  constructor
  · intro envs cl err store acts env hrun hc ht he
    have hnil : (ProcessEvents m .MAIN_LOOP envs).1.errNil :=
      ProcessEvents_errNil m .MAIN_LOOP envs trivial
    rw [hrun] at hnil
    simp only [Loc.errNil] at hnil
    subst hnil
    simp [step, hc, ht, he, callError]
  · intro env hc hg hp
    simp [step, hc, hg, hp, callError]

theorem ProcessEvents_error_panics_witness :
    step { exampleMirror with store := exampleMirror.store } (.receiving 1 none) brokenEnv =
      (.panicked "invalid memory address or nil pointer dereference", exampleMirror.store, []) ∧
    step exampleMirror .MAIN_LOOP refusedEnv =
      (.panicked "invalid memory address or nil pointer dereference", exampleMirror.store, []) :=
  ⟨(ProcessEvents_error_panics exampleMirror).1 [connectEnv] 1 none exampleMirror.store []
      brokenEnv rfl rfl rfl rfl,
    (ProcessEvents_error_panics exampleMirror).2 refusedEnv rfl rfl rfl⟩

theorem dispatch_expire_str (m : Mirror K V) (key s : String)
    (h : m.pool.Cmd "GET" [Arg.str key] = Resp.str s) :
    dispatch m "expire" key =
      (m.store.Store (m.formatter.ToKey key) (m.formatter.ToValue s),
        [Action.Cmd (Command.mk "GET" [Arg.str key])]) := by
  simp [dispatch, redisGet_str m key s h]

theorem dispatch_expire_failed (m : Mirror K V) (key : String)
    (h : ∀ s, m.pool.Cmd "GET" [Arg.str key] ≠ Resp.str s) :
    dispatch m "expire" key = (m.store, [Action.Cmd (Command.mk "GET" [Arg.str key])]) := by
  have hr : ∃ x, redisGet m key = (.error x, [Command.mk "GET" [Arg.str key]]) := by
    unfold redisGet
    cases hc : m.pool.Cmd "GET" [Arg.str key] with
    | str s => exact absurd hc (h s)
    | failed e => exact ⟨.lib e, by simp [Resp.Err]⟩
    | nil => exact ⟨.lib .respNil, by simp [Resp.Err, Resp.Str]⟩
    | int i => exact ⟨.lib .badType, by simp [Resp.Err, Resp.Str]⟩
    | array xs => exact ⟨.lib .badType, by simp [Resp.Err, Resp.Str]⟩
  rcases hr with ⟨x, hx⟩
  simp [dispatch, hx]

theorem dispatch_frame (m : Mirror K V) (e key : String) (k2 : K)
    (hk : k2 ≠ m.formatter.ToKey key) : (dispatch m e key).1.Load k2 = m.store.Load k2 := by
  unfold dispatch
  split_ifs
  · rcases hr : redisGet m key with ⟨r, cmds⟩
    cases r <;> simp [SyncMap.Load, SyncMap.Store, hk]
  · simp [SyncMap.Load, SyncMap.Delete, hk]
  · simp [SyncMap.Load, SyncMap.Delete, hk]
  · rfl

/-- C5: a turn of the inner loop that receives a message whose channel names
the event `e`, for wire key `k`, goes on with the inner loop on the same
connection. With `e = "expire"` and the remote `GET` of `k` answering the
string `s`, one `GET k` is sent, `ToKey k` loads `ToValue s` afterwards and
the store is the old one with that entry set. With `e = "expire"` and any
other answer to the `GET` (a failure, nil, another type), one `GET k` is sent
and every key, `ToKey k` too, loads what it did. With `e = "expired"` or
`e = "del"` nothing is sent, `ToKey k` loads nothing afterwards and the store
is the old one without that entry. With any other `e` nothing is sent and
every key loads what it did. In every case the keys other than `ToKey k` load
what they did. -/
theorem step_message_dispatch (m : Mirror K V) (cl : Conn) (err : Option Error) (env : Env)
    (e : String)
    (hc : env.closed = false) (ht : env.recv.Timeout = false) (hn : env.recv.Err = none)
    (hm : env.recv.Typ = SubRespType.Message) (he : getEvent env.recv.Channel = .ok e) :
    (step m (.receiving cl err) env).1 = .receiving cl err ∧
    (e = "expire" → ∀ s, m.pool.Cmd "GET" [Arg.str env.recv.Message] = Resp.str s →
      (step m (.receiving cl err) env).2.2 =
        [Action.Cmd (Command.mk "GET" [Arg.str env.recv.Message])] ∧
      (step m (.receiving cl err) env).2.1.Load (m.formatter.ToKey env.recv.Message) =
        some (m.formatter.ToValue s) ∧
      (step m (.receiving cl err) env).2.1 =
        m.store.Store (m.formatter.ToKey env.recv.Message) (m.formatter.ToValue s)) ∧
    (e = "expire" → (∀ s, m.pool.Cmd "GET" [Arg.str env.recv.Message] ≠ Resp.str s) →
      (step m (.receiving cl err) env).2.2 =
        [Action.Cmd (Command.mk "GET" [Arg.str env.recv.Message])] ∧
      (step m (.receiving cl err) env).2.1 = m.store ∧
      ∀ k2, (step m (.receiving cl err) env).2.1.Load k2 = m.store.Load k2) ∧
    (e = "expired" ∨ e = "del" →
      (step m (.receiving cl err) env).2.2 = [] ∧
      (step m (.receiving cl err) env).2.1.Load (m.formatter.ToKey env.recv.Message) = none ∧
      (step m (.receiving cl err) env).2.1 =
        m.store.Delete (m.formatter.ToKey env.recv.Message)) ∧
    (e ≠ "expire" → e ≠ "expired" → e ≠ "del" →
      (step m (.receiving cl err) env).2.2 = [] ∧
      (step m (.receiving cl err) env).2.1 = m.store ∧
      ∀ k2, (step m (.receiving cl err) env).2.1.Load k2 = m.store.Load k2) ∧
    (∀ k2, k2 ≠ m.formatter.ToKey env.recv.Message →
      (step m (.receiving cl err) env).2.1.Load k2 = m.store.Load k2) := by
  have hs : step m (.receiving cl err) env =
      (.receiving cl err, (dispatch m e env.recv.Message).1, (dispatch m e env.recv.Message).2) := by
    simp [step, hc, ht, hn, hm, he]
  rw [hs]
  refine ⟨rfl, ?_, ?_, ?_, ?_, ?_⟩
  · intro h s hg
    subst h
    simp [dispatch_expire_str m _ s hg, SyncMap.Load, SyncMap.Store]
  · intro h hg
    subst h
    simp [dispatch_expire_failed m _ hg]
  · rintro (h | h) <;> subst h <;> simp [dispatch, SyncMap.Load, SyncMap.Delete]
  · intro h1 h2 h3
    simp [dispatch, h1, h2, h3]
  · intro k2 hk
    exact dispatch_frame m e _ k2 hk

theorem step_message_dispatch_witness :
    ((step cachedMirror (.receiving 1 none) delEnv).1 = .receiving 1 none ∧
      (step cachedMirror (.receiving 1 none) delEnv).2.2 = [] ∧
      (step cachedMirror (.receiving 1 none) delEnv).2.1.Load "a" = none) ∧
    ((step cachedMirror (.receiving 1 none) expiredEnv).2.2 = [] ∧
      (step cachedMirror (.receiving 1 none) expiredEnv).2.1.Load "a" = none) ∧
    ((step staleMirror (.receiving 1 none) setEnv).2.2 = [] ∧
      (step staleMirror (.receiving 1 none) setEnv).2.1.Load "a" = some "0") ∧
    ((step exampleMirror (.receiving 1 none) expireEnv).2.2 =
        [Action.Cmd (Command.mk "GET" [Arg.str "a"])] ∧
      (step exampleMirror (.receiving 1 none) expireEnv).2.1.Load "a" = some "1") ∧
    ((step cachedMirror (.receiving 1 none) expireGoneEnv).2.2 =
        [Action.Cmd (Command.mk "GET" [Arg.str "c"])] ∧
      (step cachedMirror (.receiving 1 none) expireGoneEnv).2.1.Load "a" = some "1" ∧
      (step cachedMirror (.receiving 1 none) expireGoneEnv).2.1.Load "c" = none) :=
  have hdel := step_message_dispatch cachedMirror 1 none delEnv "del" rfl rfl rfl rfl (by decide)
  have hexp := step_message_dispatch cachedMirror 1 none expiredEnv "expired" rfl rfl rfl rfl
    (by decide)
  have hset := step_message_dispatch staleMirror 1 none setEnv "set" rfl rfl rfl rfl (by decide)
  have hget := step_message_dispatch exampleMirror 1 none expireEnv "expire" rfl rfl rfl rfl
    (by decide)
  have hgone := step_message_dispatch cachedMirror 1 none expireGoneEnv "expire" rfl rfl rfl rfl
    (by decide)
  have hnone : ∀ s, cachedMirror.pool.Cmd "GET" [Arg.str expireGoneEnv.recv.Message] ≠
      Resp.str s := fun s h => Resp.noConfusion (Eq.trans (Eq.symm h) rfl : Resp.str s = Resp.nil)
  have h1 := hdel.2.2.2.1 (Or.inr rfl)
  have h2 := hexp.2.2.2.1 (Or.inl rfl)
  have h3 := hset.2.2.2.2.1 (by decide) (by decide) (by decide)
  have h4 := hget.2.1 rfl "1" rfl
  have h5 := hgone.2.2.1 rfl hnone
  ⟨⟨hdel.1, h1.1, h1.2.1⟩, ⟨h2.1, h2.2.1⟩, ⟨h3.1, (h3.2.2 "a").trans rfl⟩, ⟨h4.1, h4.2.1⟩,
    ⟨h5.1, (h5.2.2 "a").trans rfl, (h5.2.2 "c").trans rfl⟩⟩

end Proofs

end RedisMirror
